import Mathlib

/-!
Shallow embedding of the yakonfig configuration-assembly library.

The embedding follows the Python sources:
  - yakonfig/yakonfig.py   (global configuration state, scoped override)
  - yakonfig/toplevel.py   (walker, default assembly, argument fill, validation)
  - yakonfig/configurable.py (check_subconfig)
  - yakonfig/merge.py      (overlay_config; the file itself is absent from the
    sources at hand, so it is modelled from the specification, see below)

Python dictionaries are modelled as association lists with insertion-order
semantics: an update keeps the position of an existing key, a fresh key is
appended at the end.  A raised Python exception is modelled as an error value
returned next to the state the mutated objects were left in, since in-place
mutations applied before the raise survive it.
-/

namespace Yakonfig

/-- A YAML-shaped configuration value: Python None, scalars, and dictionaries.
Dictionaries are association lists in insertion order. -/
inductive Val : Type where
  | null : Val
  | str : String → Val
  | num : Int → Val
  | map : List (String × Val) → Val
deriving Repr

/-- A configuration dictionary, as passed around by the Python code. -/
abbrev Cfg := List (String × Val)

/-- Dictionary read: first binding of a key, if any. -/
def lookupC : Cfg → String → Option Val
  | [], _ => none
  | (k, v) :: rest, key => if k = key then some v else lookupC rest key

/-- Python `key in dict`. -/
def hasKey (cfg : Cfg) (key : String) : Bool :=
  (lookupC cfg key).isSome

/-- Python `dict[key] = v`: replace in place if the key exists, else append. -/
def setKey : Cfg → String → Val → Cfg
  | [], key, v => [(key, v)]
  | (k, v0) :: rest, key, v =>
    if k = key then (key, v) :: rest else (k, v0) :: setKey rest key v

/-- Python `dict.setdefault(key, d)`: the value now under the key, and the
possibly extended dictionary. -/
def setdefaultC (cfg : Cfg) (key : String) (d : Val) : Val × Cfg :=
  match lookupC cfg key with
  | some v => (v, cfg)
  | none => (d, cfg ++ [(key, d)])

/-- Whether a value is a `collections.Mapping`. -/
def Val.isMap : Val → Bool
  | Val.map _ => true
  | _ => false

/-- The exceptions the embedded code can raise. -/
inductive Err : Type where
  | programmerError (msg : String)
  | configurationError (msg : String)
  | keyError (key : Option String)
  | attributeError (attr : String)
  | typeError (msg : String)
  | userError (msg : String)
deriving DecidableEq, Repr

/-- A Configurable-like object (yakonfig/configurable.py): a `config_name`
(`none` models a missing attribute), a `default_config` dictionary, a list of
`sub_modules`, the `runtime_keys` pairs in iteration order, and an optional
`check_config` member.  A checker receives the scoped configuration value and
the qualified name, and returns the error it raises (if any) next to the
value it left the scoped configuration at, since checkers may mutate it. -/
inductive Module : Type where
  | mk (config_name : Option String)
       (default_config : Cfg)
       (sub_modules : List Module)
       (runtime_keys : List (String × String))
       (check : Option (Val → String → Option Err × Val)) : Module

def Module.config_name : Module → Option String
  | .mk n _ _ _ _ => n

def Module.default_config : Module → Cfg
  | .mk _ d _ _ _ => d

def Module.sub_modules : Module → List Module
  | .mk _ _ s _ _ => s

def Module.runtime_keys : Module → List (String × String)
  | .mk _ _ _ r _ => r

def Module.check_config : Module → Option (Val → String → Option Err × Val)
  | .mk _ _ _ _ c => c

/-- The visitor type of `_walk_config`: `f(config, module, name)` receives the
scoped dictionary, the module and the qualified name, and returns the error it
raises (if any) next to the dictionary as it left it. -/
abbrev Visitor := Cfg → Module → String → Option Err × Cfg

mutual

/-- `toplevel._walk_config`, iteration over the module list.  The returned
dictionary reflects all in-place mutations applied before an error. -/
def walk_config (f : Visitor) (required : Bool) :
    Cfg → List Module → String → Option Err × Cfg
  | cfg, [], _ => (none, cfg)
  | cfg, m :: rest, pre =>
    match walkModule f required cfg m pre with
    | (some e, cfg1) => (some e, cfg1)
    | (none, cfg1) => walk_config f required cfg1 rest pre

/-- One iteration of the `for module in modules` loop of
`toplevel._walk_config`: name and presence checks, the visitor call, then the
recursion into `sub_modules`. -/
def walkModule (f : Visitor) (required : Bool) :
    Cfg → Module → String → Option Err × Cfg
  | cfg, Module.mk none _ _ _ _, _ =>
    (some (.programmerError "module must provide a config_name"), cfg)
  | cfg, Module.mk (some name) dflt subs rkeys chk, pre =>
    let new_name := pre ++ name
    let m := Module.mk (some name) dflt subs rkeys chk
    match
      (if required then
        match lookupC cfg name with
        | none =>
          Except.error (Err.programmerError
            (new_name ++ " not present in configuration"))
        | some (Val.map mvals) => Except.ok (mvals, cfg)
        | some _ =>
          Except.error (Err.configurationError
            (new_name ++ " must be an object configuration"))
      else
        if hasKey cfg name then
          Except.error (Err.programmerError
            ("multiple modules providing " ++ new_name))
        else
          Except.ok (([] : Cfg), setKey cfg name (Val.map [])) :
        Except Err (Cfg × Cfg)) with
    | Except.error e => (some e, cfg)
    | Except.ok (sc, cfg0) =>
      match f sc m new_name with
      | (some e, sc1) => (some e, setKey cfg0 name (Val.map sc1))
      | (none, sc1) =>
        match walk_config f required sc1 subs (new_name ++ ".") with
        | (e2, sc2) => (e2, setKey cfg0 name (Val.map sc2))

end

/-! ## Visitors built on the walker (toplevel.py) -/

/-- The `work_in` visitor of `assemble_default_config`:
`config.update(dict(module.default_config))`. -/
def assembleVisitor : Visitor :=
  fun cfg m _ =>
    (none, m.default_config.foldl (fun acc kv => setKey acc kv.1 kv.2) cfg)

/-- `toplevel.assemble_default_config`: walk a fresh dictionary with
`required=False`, copying every module's `default_config` into its scope. -/
def assemble_default_config (modules : List Module) : Option Err × Cfg :=
  walk_config assembleVisitor false [] modules ""

/-- One `(attr, cname)` iteration of the `work_in` visitor of
`fill_in_arguments`: `v = args.get(attr, None); if v is not None:
config[cname] = v`. -/
def applyRuntimeKey (args : Cfg) (acc : Cfg) (kv : String × String) : Cfg :=
  match lookupC args kv.1 with
  | some Val.null => acc
  | some v => setKey acc kv.2 v
  | none => acc

/-- The `work_in` visitor of `fill_in_arguments`. -/
def fillVisitor (args : Cfg) : Visitor :=
  fun cfg m _ => (none, m.runtime_keys.foldl (applyRuntimeKey args) cfg)

/-- `toplevel.fill_in_arguments` with the argument source already in mapping
form (the `vars(args)` adapter for namespace objects is external):
walk the given configuration with `required=True`. -/
def fill_in_arguments (cfg : Cfg) (modules : List Module) (args : Cfg) :
    Option Err × Cfg :=
  walk_config (fillVisitor args) true cfg modules ""

/-! ## The overlay engine (yakonfig/merge.py) -/

mutual

/-- Modelled from the spec: `merge.overlay_config` is named by the sources
(`toplevel.py` imports it) but `yakonfig/merge.py` itself is absent from the
sources at hand.  Per the specification: if either operand is not a Mapping
the result is the overlay verbatim; for two Mappings, base-only keys are
copied unchanged, a null overlay value deletes the key, a key present in both
is merged recursively, and overlay-only non-null keys are inserted.  Neither
input is mutated. -/
def overlay_config : Val → Val → Val
  | Val.map b, Val.map o =>
    Val.map (overlayBase b o ++
      o.filter (fun kv => !hasKey b kv.1 && !(kv.2 matches Val.null)))
  | _, o => o

/-- Modelled from the spec: the treatment of the base entries by
`overlay_config` on two Mappings: keep a key absent from the overlay
unchanged, drop a key the overlay maps to null, otherwise merge recursively.
-/
def overlayBase : Cfg → Cfg → Cfg
  | [], _ => []
  | (k, v) :: rest, o =>
    match lookupC o k with
    | none => (k, v) :: overlayBase rest o
    | some Val.null => overlayBase rest o
    | some ov => (k, overlay_config v ov) :: overlayBase rest o

end

/-- The two-Mappings case of `overlay_config`: base keys first (in base
order), then the overlay-only non-null keys (in overlay order). -/
def overlayMap (b o : Cfg) : Cfg :=
  overlayBase b o ++
    o.filter (fun kv => !hasKey b kv.1 && !(kv.2 matches Val.null))

/-! ## check_subconfig (yakonfig/configurable.py) -/

/-- `configurable.check_subconfig(config, name, sub)`: `setdefault` the
sub-mapping into the parent, require it to be a Mapping (ProgrammerError
otherwise), then run the sub-object's `check_config` with the dotted
qualified name. -/
def check_subconfig (config : Cfg) (name : String) (sub : Module) :
    Option Err × Cfg :=
  match sub.config_name with
  | none => (some (.attributeError "config_name"), config)
  | some subname =>
    let (subconfig, config1) := setdefaultC config subname (Val.map [])
    if subconfig.isMap then
      match sub.check_config with
      | none => (none, config1)
      | some checker =>
        let (e, v1) := checker subconfig (name ++ "." ++ subname)
        (e, setKey config1 subname v1)
    else
      (some (.programmerError
        ("configuration for " ++ subname ++ " in " ++ name ++
          " must be a mapping")), config1)

/-! ## Global state (yakonfig/yakonfig.py) -/

/-- The four module-level globals of yakonfig/yakonfig.py.  Runtime argument
sources are kept as dictionaries (the `vars()` view of a namespace object).
-/
structure GlobalState : Type where
  config_cache : Option Val
  config_file_path : Option String
  runtime_args_object : Option Cfg
  runtime_args_dict : Option Cfg
deriving Repr

/-- `yakonfig.clear_global_config`: reset all four globals. -/
def clear_global_config (_s : GlobalState) : GlobalState :=
  ⟨none, none, none, none⟩

/-- `yakonfig.set_runtime_args_object`: unconditionally record the object and
drop any dictionary binding. -/
def set_runtime_args_object (args : Cfg) (s : GlobalState) : GlobalState :=
  { s with runtime_args_object := some args, runtime_args_dict := none }

/-- Python truthiness of the optional dictionary argument: `None` and the
empty dictionary are falsy. -/
def truthyArgs : Option Cfg → Bool
  | none => false
  | some l => !l.isEmpty

/-- `yakonfig.set_runtime_args_dict`: guarded by `if args:`, so a falsy
argument changes nothing. -/
def set_runtime_args_dict (args : Option Cfg) (s : GlobalState) : GlobalState :=
  if truthyArgs args then
    { s with runtime_args_dict := args, runtime_args_object := none }
  else s

/-- `yakonfig.set_global_config`, restricted to the Mapping branch (the path
and stream branches read files, which is external I/O): store the mapping in
the cache, leaving the other globals alone. -/
def set_global_config (mapping : Val) (s : GlobalState) : GlobalState :=
  { s with config_cache := some mapping }

/-- Python `c[a]` on a configuration value: mapping lookup raises KeyError on
a missing key; subscripting a non-mapping raises TypeError. -/
def getItem : Val → String → Except Err Val
  | Val.map m, a =>
    match lookupC m a with
    | some v => Except.ok v
    | none => Except.error (.keyError (some a))
  | _, _ => Except.error (.typeError "value is not subscriptable")

/-- The `for a in args: c = c[a]` loop of `get_global_config`. -/
def descend : Val → List String → Except Err Val
  | c, [] => Except.ok c
  | c, a :: rest =>
    match getItem c a with
    | Except.ok v => descend v rest
    | Except.error e => Except.error e

/-- `yakonfig.get_global_config`: KeyError on the first path segment (or on
`None`) when nothing is configured, otherwise descend the tree one key per
argument. -/
def get_global_config (s : GlobalState) (args : List String) : Except Err Val :=
  match s.config_cache with
  | none => Except.error (.keyError args.head?)
  | some c => descend c args

/-- `yakonfig._temporary_config`: save the four globals, clear them, run the
body, and restore the saved values after the yield.  The generator has no
`try`/`finally`, so when the body raises, `contextlib` throws the exception
at the yield point and the statements after it never run: the state is left
as the body had it. -/
def temporary_config (body : GlobalState → Option Err × GlobalState)
    (s : GlobalState) : Option Err × GlobalState :=
  let saved := s
  match body (clear_global_config s) with
  | (none, _) => (none, saved)
  | (some e, s1) => (some e, s1)

/-! ## Top-level assembly (toplevel.py) -/

/-- The first three steps of `toplevel.set_default_config`: assemble the
defaults, overlay the configuration document (when one is given; the `yaml`
and `filename` parameters go through the external YAML loader and are
represented by the resulting mapping), and fill in the arguments. -/
def assembled (modules : List Module) (params : Cfg) (fileConfig : Option Cfg) :
    Option Err × Cfg :=
  match assemble_default_config modules with
  | (some e, c) => (some e, c)
  | (none, default_config) =>
    let base :=
      match fileConfig with
      | none => default_config
      | some fc => overlayMap default_config fc
    fill_in_arguments base modules params

/-- The validation step of `toplevel.set_default_config`: when the module
list is not empty, fetch the last module and run its `check_config` (if
defined) on its scoped configuration with its top-level name. -/
def validateLast (modules : List Module) (base : Cfg) : Option Err × Cfg :=
  match modules.getLast? with
  | none => (none, base)
  | some m =>
    match m.check_config with
    | none => (none, base)
    | some checker =>
      match m.config_name with
      | none => (some (.attributeError "config_name"), base)
      | some n =>
        match lookupC base n with
        | none => (some (.keyError (some n)), base)
        | some v =>
          let (e, v1) := checker v n
          (e, setKey base n v1)

/-- `toplevel.set_default_config`: assemble, overlay, fill, optionally
validate the last module, then publish via `set_global_config`.  Returns the
error (if one is raised), the global state afterwards, and the configuration
dictionary the call built. -/
def set_default_config (modules : List Module) (params : Cfg)
    (fileConfig : Option Cfg) (validate : Bool) (s : GlobalState) :
    Option Err × GlobalState × Cfg :=
  match assembled modules params fileConfig with
  | (some e, c) => (some e, s, c)
  | (none, base) =>
    if validate && !modules.isEmpty then
      match validateLast modules base with
      | (some e, base1) => (some e, s, base1)
      | (none, base1) => (none, set_global_config (Val.map base1) s, base1)
    else
      (none, set_global_config (Val.map base) s, base)

/-- `toplevel.defaulted_config`: inside `_temporary_config`, run
`set_default_config` and yield to the caller-supplied block. -/
def defaulted_config (modules : List Module) (params : Cfg)
    (fileConfig : Option Cfg) (validate : Bool)
    (block : GlobalState → Option Err × GlobalState) (s : GlobalState) :
    Option Err × GlobalState :=
  temporary_config
    (fun s1 =>
      match set_default_config modules params fileConfig validate s1 with
      | (some e, s2, _) => (some e, s2)
      | (none, s2, _) => block s2)
    s

/-! ## Instrumented walker

`walkTrace*` mirrors `walk_config` step for step and additionally records the
qualified name passed to each visitor invocation, in invocation order.  The
projection lemmas below prove that the instrumentation does not change the
computation. -/

mutual

/-- `walk_config` with a log of the visitor invocations. -/
def walkTraceList (f : Visitor) (required : Bool) :
    Cfg → List Module → String → (Option Err × Cfg) × List String
  | cfg, [], _ => ((none, cfg), [])
  | cfg, m :: rest, pre =>
    match walkTraceModule f required cfg m pre with
    | ((some e, cfg1), t) => ((some e, cfg1), t)
    | ((none, cfg1), t) =>
      match walkTraceList f required cfg1 rest pre with
      | (r, t2) => (r, t ++ t2)

/-- `walkModule` with a log of the visitor invocations. -/
def walkTraceModule (f : Visitor) (required : Bool) :
    Cfg → Module → String → (Option Err × Cfg) × List String
  | cfg, Module.mk none _ _ _ _, _ =>
    ((some (.programmerError "module must provide a config_name"), cfg), [])
  | cfg, Module.mk (some name) dflt subs rkeys chk, pre =>
    let new_name := pre ++ name
    let m := Module.mk (some name) dflt subs rkeys chk
    match
      (if required then
        match lookupC cfg name with
        | none =>
          Except.error (Err.programmerError
            (new_name ++ " not present in configuration"))
        | some (Val.map mvals) => Except.ok (mvals, cfg)
        | some _ =>
          Except.error (Err.configurationError
            (new_name ++ " must be an object configuration"))
      else
        if hasKey cfg name then
          Except.error (Err.programmerError
            ("multiple modules providing " ++ new_name))
        else
          Except.ok (([] : Cfg), setKey cfg name (Val.map [])) :
        Except Err (Cfg × Cfg)) with
    | Except.error e => ((some e, cfg), [])
    | Except.ok (sc, cfg0) =>
      match f sc m new_name with
      | (some e, sc1) => ((some e, setKey cfg0 name (Val.map sc1)), [new_name])
      | (none, sc1) =>
        match walkTraceList f required sc1 subs (new_name ++ ".") with
        | ((e2, sc2), t) =>
          ((e2, setKey cfg0 name (Val.map sc2)), new_name :: t)

end

mutual

/-- The qualified names of a module forest in depth-first pre-order:
declaration order for siblings, a node before its children, children under
the qualified name extended with a dot. -/
def preorderList (pre : String) : List Module → List String
  | [] => []
  | m :: rest => preorderModule pre m ++ preorderList pre rest

/-- Pre-order names of a single module and its descendants. -/
def preorderModule (pre : String) : Module → List String
  | Module.mk none _ _ _ _ => []
  | Module.mk (some n) _ subs _ _ =>
    (pre ++ n) :: preorderList (pre ++ n ++ ".") subs

end

/-! ## The specification wording of the validator, and concrete fixtures -/

/-- Follows the wording of the specification (section 4.5) rather than the
code, for comparison with the validation the code performs: the validator as
a visitor run with the walker with `require_existing = true`, invoking every
module's `check_config` (when defined) with its scoped configuration and its
qualified dotted name. -/
def validateSpec (modules : List Module) (base : Cfg) : Option Err × Cfg :=
  walk_config
    (fun sc m qn =>
      match m.check_config with
      | none => (none, sc)
      | some checker =>
        match checker (Val.map sc) qn with
        | (e, Val.map sc1) => (e, sc1)
        | (e, _) => (e, sc))
    true base modules ""

/-- The spec's end-to-end scenario 2: one default value and one runtime key.
-/
def topModule : Module :=
  Module.mk (some "top") [("msg", Val.str "hello")] [] [("cli_msg", "msg")]
    none

/-- A global state as a program would hold it before a scoped override. -/
def sBefore : GlobalState :=
  ⟨some (Val.map [("orig", Val.num 1)]), some "orig.yaml", none, none⟩

/-- A module that forwards one runtime argument into its configuration. -/
def mRuntime : Module :=
  Module.mk (some "a") [] [] [("k", "x")] none

/-- An object without a `config_name` attribute. -/
def mNameless : Module :=
  Module.mk none [] [] [] none

/-- A module with one default value and no checker. -/
def mWithDefault : Module :=
  Module.mk (some "a1") [("x", Val.num 1)] [] [] none

/-- A module whose checker always raises ConfigurationError. -/
def mFirstBad : Module :=
  Module.mk (some "m1") [] [] []
    (some (fun v _ => (some (.configurationError "m1 invalid"), v)))

/-- A module with no checker at all. -/
def mSecond : Module :=
  Module.mk (some "m2") [] [] [] none

/-- A child module whose checker raises ConfigurationError naming its
qualified name. -/
def cChild : Module :=
  Module.mk (some "c") [] [] []
    (some (fun v qn => (some (.configurationError (qn ++ " is invalid")), v)))

/-- A parent whose checker descends into its child with `check_subconfig`,
the documented pattern for nested validation. -/
def pParent : Module :=
  Module.mk (some "p") [] [cChild] []
    (some (fun v n =>
      match v with
      | Val.map cm =>
        match check_subconfig cm n cChild with
        | (e, cm1) => (e, Val.map cm1)
      | other => (none, other)))

/-- A child with a default value, for the nesting scenario. -/
def nestChild : Module :=
  Module.mk (some "c") [("k", Val.num 1)] [] [] none

/-- A parent with a default value and one child, for the nesting scenario. -/
def nestParent : Module :=
  Module.mk (some "p") [("k0", Val.num 0)] [nestChild] [] none

mutual

/-- The instrumented walker computes the same result as `_walk_config`. -/
theorem walkTraceList_fst (f : Visitor) (required : Bool) :
    ∀ (cfg : Cfg) (ms : List Module) (pre : String),
      (walkTraceList f required cfg ms pre).1 = walk_config f required cfg ms pre
  | _, [], _ => rfl
  | cfg, m :: rest, pre => by
    rw [walkTraceList, walk_config, ← walkTraceModule_fst f required cfg m pre]
    rcases walkTraceModule f required cfg m pre with ⟨⟨e, cfg1⟩, t⟩
    cases e with
    | some e => rfl
    | none =>
      dsimp only
      rw [← walkTraceList_fst f required cfg1 rest pre]

/-- The instrumented per-module step computes the same result as the
per-module step of `_walk_config`. -/
theorem walkTraceModule_fst (f : Visitor) (required : Bool) :
    ∀ (cfg : Cfg) (m : Module) (pre : String),
      (walkTraceModule f required cfg m pre).1 = walkModule f required cfg m pre
  | _, Module.mk none _ _ _ _, _ => rfl
  | cfg, Module.mk (some name) dflt subs rkeys chk, pre => by
    rw [walkTraceModule, walkModule]
    rcases hstep :
      (if required then
        match lookupC cfg name with
        | none =>
          Except.error (Err.programmerError
            (pre ++ name ++ " not present in configuration"))
        | some (Val.map mvals) => Except.ok (mvals, cfg)
        | some _ =>
          Except.error (Err.configurationError
            (pre ++ name ++ " must be an object configuration"))
      else
        if hasKey cfg name then
          Except.error (Err.programmerError
            ("multiple modules providing " ++ (pre ++ name)))
        else
          Except.ok (([] : Cfg), setKey cfg name (Val.map [])) :
        Except Err (Cfg × Cfg)) with e | ⟨sc, cfg0⟩
    · rfl
    · dsimp only
      rcases f sc (Module.mk (some name) dflt subs rkeys chk) (pre ++ name)
        with ⟨e1, sc1⟩
      cases e1 with
      | some e => rfl
      | none =>
        dsimp only
        rw [← walkTraceList_fst f required sc1 subs (pre ++ name ++ ".")]


end

mutual

/-- When the walk raises no error, the visitor invocations are exactly the
depth-first pre-order of the module forest. -/
theorem walkTraceList_preorder (f : Visitor) (required : Bool) :
    ∀ (cfg : Cfg) (ms : List Module) (pre : String),
      (walkTraceList f required cfg ms pre).1.1 = none →
      (walkTraceList f required cfg ms pre).2 = preorderList pre ms
  | _, [], _ => fun _ => rfl
  | cfg, m :: rest, pre => by
    rw [walkTraceList]
    rcases hm : walkTraceModule f required cfg m pre with ⟨⟨e, cfg1⟩, t⟩
    cases e with
    | some e => exact fun h => nomatch h
    | none =>
      dsimp only
      rcases hr : walkTraceList f required cfg1 rest pre with ⟨⟨e2, cfg2⟩, t2⟩
      dsimp only
      intro h
      have h1 := walkTraceModule_preorder f required cfg m pre
      rw [hm] at h1
      have h2 := walkTraceList_preorder f required cfg1 rest pre
      rw [hr] at h2
      have h1a : t = preorderModule pre m := h1 rfl
      have h2a : t2 = preorderList pre rest := h2 h
      rw [preorderList, h1a, h2a]

/-- When the per-module step raises no error, its invocation log is the
module's pre-order name list. -/
theorem walkTraceModule_preorder (f : Visitor) (required : Bool) :
    ∀ (cfg : Cfg) (m : Module) (pre : String),
      (walkTraceModule f required cfg m pre).1.1 = none →
      (walkTraceModule f required cfg m pre).2 = preorderModule pre m
  | _, Module.mk none _ _ _ _, _ => fun h => nomatch h
  | cfg, Module.mk (some name) dflt subs rkeys chk, pre => by
    rw [walkTraceModule]
    rcases hstep :
      (if required then
        match lookupC cfg name with
        | none =>
          Except.error (Err.programmerError
            (pre ++ name ++ " not present in configuration"))
        | some (Val.map mvals) => Except.ok (mvals, cfg)
        | some _ =>
          Except.error (Err.configurationError
            (pre ++ name ++ " must be an object configuration"))
      else
        if hasKey cfg name then
          Except.error (Err.programmerError
            ("multiple modules providing " ++ (pre ++ name)))
        else
          Except.ok (([] : Cfg), setKey cfg name (Val.map [])) :
        Except Err (Cfg × Cfg)) with e | ⟨sc, cfg0⟩
    · exact fun h => nomatch h
    · dsimp only
      rcases hf : f sc (Module.mk (some name) dflt subs rkeys chk) (pre ++ name)
        with ⟨e1, sc1⟩
      cases e1 with
      | some e => exact fun h => nomatch h
      | none =>
        dsimp only
        rcases hsub : walkTraceList f required sc1 subs (pre ++ name ++ ".")
          with ⟨⟨e2, sc2⟩, t⟩
        dsimp only
        intro h
        have h2 := walkTraceList_preorder f required sc1 subs (pre ++ name ++ ".")
        rw [hsub] at h2
        have h2a : t = preorderList (pre ++ name ++ ".") subs := h2 h
        rw [preorderModule, h2a]

end

/-! ## Association-list lemmas -/

theorem lookupC_append_some {a : Cfg} {k : String} {v : Val} (b : Cfg)
    (h : lookupC a k = some v) : lookupC (a ++ b) k = some v := by
  induction a with
  | nil => exact nomatch h
  | cons kv rest ih =>
    rcases kv with ⟨k0, v0⟩
    rw [lookupC] at h
    rw [List.cons_append, lookupC]
    by_cases hk : k0 = k
    · simpa [hk] using h
    · rw [if_neg hk] at h ⊢
      exact ih h

theorem lookupC_append_none {a : Cfg} {k : String} (b : Cfg)
    (h : lookupC a k = none) : lookupC (a ++ b) k = lookupC b k := by
  induction a with
  | nil => rfl
  | cons kv rest ih =>
    rcases kv with ⟨k0, v0⟩
    rw [lookupC] at h
    rw [List.cons_append, lookupC]
    by_cases hk : k0 = k
    · rw [if_pos hk] at h; exact nomatch h
    · rw [if_neg hk] at h ⊢
      exact ih h

theorem lookupC_setKey_self (cfg : Cfg) (k : String) (v : Val) :
    lookupC (setKey cfg k v) k = some v := by
  induction cfg with
  | nil => simp [setKey, lookupC]
  | cons kv rest ih =>
    rcases kv with ⟨k0, v0⟩
    rw [setKey]
    by_cases hk : k0 = k
    · rw [if_pos hk, lookupC, if_pos rfl]
    · rw [if_neg hk, lookupC, if_neg hk]
      exact ih

theorem lookupC_filter_of_none {o : Cfg} {k : String}
    (p : String × Val → Bool) (h : lookupC o k = none) :
    lookupC (o.filter p) k = none := by
  induction o with
  | nil => rfl
  | cons kv rest ih =>
    rcases kv with ⟨k0, v0⟩
    rw [lookupC] at h
    by_cases hk : k0 = k
    · rw [if_pos hk] at h; exact nomatch h
    · rw [if_neg hk] at h
      rw [List.filter_cons]
      split
      · rw [lookupC, if_neg hk]; exact ih h
      · exact ih h

theorem lookupC_overlayBase_none {o : Cfg} {k : String} (b : Cfg)
    (h : lookupC o k = none) :
    lookupC (overlayBase b o) k = lookupC b k := by
  induction b with
  | nil => rfl
  | cons kv rest ih =>
    rcases kv with ⟨k0, v0⟩
    rw [overlayBase]
    by_cases hk : k0 = k
    · subst hk
      rw [h, lookupC, if_pos rfl, lookupC, if_pos rfl]
    · rcases ho : lookupC o k0 with _ | v1
      · rw [lookupC, if_neg hk, lookupC, if_neg hk]; exact ih
      · cases v1 with
        | null => rw [lookupC, if_neg hk]; exact ih
        | str s => rw [lookupC, if_neg hk, lookupC, if_neg hk]; exact ih
        | num n => rw [lookupC, if_neg hk, lookupC, if_neg hk]; exact ih
        | map m => rw [lookupC, if_neg hk, lookupC, if_neg hk]; exact ih

theorem lookupC_overlayBase_null {o : Cfg} {k : String} (b : Cfg)
    (h : lookupC o k = some Val.null) :
    lookupC (overlayBase b o) k = none := by
  induction b with
  | nil => rfl
  | cons kv rest ih =>
    rcases kv with ⟨k0, v0⟩
    rw [overlayBase]
    by_cases hk : k0 = k
    · subst hk
      rw [h]
      exact ih
    · rcases ho : lookupC o k0 with _ | v1
      · rw [lookupC, if_neg hk]; exact ih
      · cases v1 with
        | null => exact ih
        | str s => rw [lookupC, if_neg hk]; exact ih
        | num n => rw [lookupC, if_neg hk]; exact ih
        | map m => rw [lookupC, if_neg hk]; exact ih

theorem lookupC_eq_none_of_not_mem {o : Cfg} {k : String}
    (h : k ∉ o.map Prod.fst) : lookupC o k = none := by
  induction o with
  | nil => rfl
  | cons kv rest ih =>
    rcases kv with ⟨k0, v0⟩
    rw [List.map_cons, List.mem_cons] at h
    push_neg at h
    have hk : k0 ≠ k := fun he => h.1 he.symm
    rw [lookupC, if_neg hk]
    exact ih h.2

/-- In a duplicate-free overlay dictionary, a key bound to null contributes
nothing to the overlay-only part of the merge. -/
theorem lookupC_filter_null {o : Cfg} {k : String}
    (hnd : (o.map Prod.fst).Nodup) (h : lookupC o k = some Val.null)
    (b : Cfg) :
    lookupC (o.filter
      (fun kv => !hasKey b kv.1 && !(kv.2 matches Val.null))) k = none := by
  induction o with
  | nil => rfl
  | cons kv rest ih =>
    rcases kv with ⟨k0, v0⟩
    rw [List.map_cons, List.nodup_cons] at hnd
    rw [lookupC] at h
    by_cases hk : k0 = k
    · rw [if_pos hk] at h
      have hv : v0 = Val.null := Option.some.inj h
      subst hv
      subst hk
      rw [List.filter_cons, if_neg (by simp)]
      have hrest : lookupC rest k0 = none :=
        lookupC_eq_none_of_not_mem hnd.1
      exact lookupC_filter_of_none _ hrest
    · rw [if_neg hk] at h
      rw [List.filter_cons]
      split
      · rw [lookupC, if_neg hk]; exact ih hnd.2 h
      · exact ih hnd.2 h

theorem setKey_of_not_has {cfg : Cfg} {k : String} (v : Val)
    (h : hasKey cfg k = false) : setKey cfg k v = cfg ++ [(k, v)] := by
  induction cfg with
  | nil => rfl
  | cons kv rest ih =>
    rcases kv with ⟨k0, v0⟩
    rw [hasKey, lookupC] at h
    by_cases hk : k0 = k
    · rw [if_pos hk] at h; exact nomatch h
    · rw [if_neg hk] at h
      rw [setKey, if_neg hk, List.cons_append, ih h]

theorem setKey_setKey (cfg : Cfg) (k : String) (v w : Val) :
    setKey (setKey cfg k v) k w = setKey cfg k w := by
  induction cfg with
  | nil => simp [setKey]
  | cons kv rest ih =>
    rcases kv with ⟨k0, v0⟩
    rw [setKey]
    by_cases hk : k0 = k
    · rw [if_pos hk, setKey, if_pos rfl, setKey, if_pos hk]
    · rw [if_neg hk, setKey, if_neg hk, setKey, if_neg hk, ih]

theorem isEmpty_append_singleton (ms : List Module) (m : Module) :
    (ms ++ [m]).isEmpty = false := by
  cases ms <;> rfl

theorem getLast?_append_singleton (ms : List Module) (m : Module) :
    (ms ++ [m]).getLast? = some m := by
  induction ms with
  | nil => rfl
  | cons a t ih => rw [List.cons_append, List.getLast?_cons, ih]; rfl

/-! ## Claims -/

/-- C10: `set_runtime_args_dict` with a falsy argument (None or an empty
dictionary) leaves both runtime-argument bindings unchanged, while
`set_runtime_args_object` unconditionally overwrites both, setting the
object to its argument and the dictionary binding to None. -/
theorem set_runtime_args_behaviour :
    ∀ (s : GlobalState) (a : Cfg),
      set_runtime_args_dict none s = s ∧
      set_runtime_args_dict (some []) s = s ∧
      set_runtime_args_object a s =
        ⟨s.config_cache, s.config_file_path, some a, none⟩ :=
  fun _ _ => ⟨rfl, rfl, rfl⟩

/-- C7: `get_global_config` raises KeyError whenever nothing is configured;
with no arguments and a configured state it returns the whole configuration;
otherwise it descends the tree one key per argument and raises KeyError at
the first missing segment. -/
theorem get_global_config_lookup :
    ∀ (s : GlobalState) (args : List String),
      (s.config_cache = none →
        get_global_config s args = Except.error (.keyError args.head?)) ∧
      (∀ c, s.config_cache = some c → args = [] →
        get_global_config s args = Except.ok c) ∧
      (∀ (m : Cfg) (a : String) (rest : List String), lookupC m a = none →
        descend (Val.map m) (a :: rest) =
          Except.error (.keyError (some a))) ∧
      (∀ (m : Cfg) (a : String) (rest : List String) (v : Val),
        lookupC m a = some v →
        descend (Val.map m) (a :: rest) = descend v rest) := by
  intro s args
  refine ⟨?_, ?_, ?_, ?_⟩
  · intro h; rw [get_global_config, h]
  · intro c h ha; subst ha; rw [get_global_config, h]; rfl
  · intro m a rest h; rw [descend, getItem, h]
  · intro m a rest v h; rw [descend, getItem, h]

/-- C7 witness: the three guarded cases at concrete inputs. -/
theorem get_global_config_lookup_witness :
    get_global_config ⟨none, none, none, none⟩ ["a"] =
      Except.error (.keyError (some "a")) ∧
    get_global_config sBefore [] = Except.ok (Val.map [("orig", Val.num 1)]) ∧
    descend (Val.map []) ["x"] = Except.error (.keyError (some "x")) ∧
    descend (Val.map [("x", Val.num 7)]) ["x"] = Except.ok (Val.num 7) :=
  ⟨(get_global_config_lookup ⟨none, none, none, none⟩ ["a"]).1 rfl,
   (get_global_config_lookup sBefore []).2.1 _ rfl rfl,
   (get_global_config_lookup ⟨none, none, none, none⟩ []).2.2.1 [] "x" [] rfl,
   ((get_global_config_lookup ⟨none, none, none, none⟩ []).2.2.2
     [("x", Val.num 7)] "x" [] (Val.num 7) rfl).trans rfl⟩

/-- C1: the code does not restore the saved global state when the block
raises: the exception propagates out of `defaulted_config`, and afterwards
the global configuration still holds the temporary tree built inside the
block, not the tree saved on entry (its key is gone); a normally exiting
block does get the state restored, which shows the restore-on-exit intent.
-/
theorem defaulted_config_no_restore_on_raise :
    (defaulted_config [topModule] [] none true
        (fun s => (some (.userError "boom"), s)) sBefore).1 =
      some (.userError "boom") ∧
    get_global_config
        (defaulted_config [topModule] [] none true
          (fun s => (some (.userError "boom"), s)) sBefore).2 ["orig"] =
      Except.error (.keyError (some "orig")) ∧
    get_global_config sBefore ["orig"] = Except.ok (Val.num 1) ∧
    (defaulted_config [topModule] [] none true
        (fun s => (none, s)) sBefore).2 = sBefore :=
  ⟨rfl, rfl, rfl, rfl⟩

/-- C8: the walk mutates the caller's mapping in place and does not roll it
back on error: when the second module lacks a `config_name` or duplicates a
sibling name, the error is raised after the first module's mutations have
been applied, and they remain in the returned mapping. -/
theorem walk_config_not_atomic :
    fill_in_arguments [("a", Val.map [("x", Val.str "old")]), ("b", Val.map [])]
        [mRuntime, mNameless] [("k", Val.str "new")] =
      (some (.programmerError "module must provide a config_name"),
       [("a", Val.map [("x", Val.str "new")]), ("b", Val.map [])]) ∧
    assemble_default_config [mWithDefault, mNameless] =
      (some (.programmerError "module must provide a config_name"),
       [("a1", Val.map [("x", Val.num 1)])]) ∧
    assemble_default_config [mWithDefault, mWithDefault] =
      (some (.programmerError "multiple modules providing a1"),
       [("a1", Val.map [("x", Val.num 1)])]) :=
  ⟨rfl, rfl, rfl⟩

/-- C4: in the overlay merge a null overlay value is a delete marker: the
key is omitted from the result (shown in general for duplicate-free overlay
dictionaries, and on the concrete example), while keys present only in the
base are copied unchanged. -/
theorem overlay_null_deletion :
    overlay_config (Val.map [("a", Val.num 1), ("b", Val.num 2)])
        (Val.map [("b", Val.null)]) = Val.map [("a", Val.num 1)] ∧
    (∀ (b o : Cfg) (k : String), (o.map Prod.fst).Nodup →
      lookupC o k = some Val.null → lookupC (overlayMap b o) k = none) ∧
    (∀ (b o : Cfg) (k : String), lookupC o k = none →
      lookupC (overlayMap b o) k = lookupC b k) := by
  refine ⟨rfl, ?_, ?_⟩
  · intro b o k hnd h
    rw [overlayMap, lookupC_append_none _ (lookupC_overlayBase_null b h)]
    exact lookupC_filter_null hnd h b
  · intro b o k h
    have h1 : lookupC (overlayBase b o) k = lookupC b k :=
      lookupC_overlayBase_none b h
    rw [overlayMap]
    rcases hb : lookupC b k with _ | v
    · rw [lookupC_append_none _ (h1.trans hb)]
      exact lookupC_filter_of_none _ h
    · exact lookupC_append_some _ (h1.trans hb)

/-- C4 witness: both general parts at concrete dictionaries. -/
theorem overlay_null_deletion_witness :
    lookupC (overlayMap [("a", Val.num 1)] [("b", Val.null)]) "b" = none ∧
    lookupC (overlayMap [("a", Val.num 1)] [("b", Val.null)]) "a" =
      some (Val.num 1) :=
  ⟨(overlay_null_deletion.2.1 [("a", Val.num 1)] [("b", Val.null)] "b"
      (by simp) rfl),
   ((overlay_null_deletion.2.2 [("a", Val.num 1)] [("b", Val.null)] "a"
      rfl).trans rfl)⟩

/-- C3: the presence/absence invariant of `_walk_config`: with
`required=True` a missing key is a ProgrammerError and a present non-Mapping
value is a ConfigurationError; with `required=False` an already present key
is a ProgrammerError and an absent one is initialized to an empty mapping; a
module without a `config_name` is a ProgrammerError in either mode. -/
theorem walk_config_presence_absence :
    ∀ (f : Visitor) (cfg : Cfg) (ms : List Module) (pre : String)
      (m : Module) (n : String),
      (m.config_name = none → ∀ req,
        walk_config f req cfg (m :: ms) pre =
          (some (.programmerError "module must provide a config_name"),
           cfg)) ∧
      (m.config_name = some n → lookupC cfg n = none →
        walk_config f true cfg (m :: ms) pre =
          (some (.programmerError
            (pre ++ n ++ " not present in configuration")), cfg)) ∧
      (∀ v, m.config_name = some n → lookupC cfg n = some v →
        v.isMap = false →
        walk_config f true cfg (m :: ms) pre =
          (some (.configurationError
            (pre ++ n ++ " must be an object configuration")), cfg)) ∧
      (m.config_name = some n → hasKey cfg n = true →
        walk_config f false cfg (m :: ms) pre =
          (some (.programmerError
            ("multiple modules providing " ++ (pre ++ n))), cfg)) ∧
      (m.config_name = some n → hasKey cfg n = false → m.sub_modules = [] →
        walk_config (fun sc _ _ => (none, sc)) false cfg [m] pre =
          (none, cfg ++ [(n, Val.map [])])) := by
  intro f cfg ms pre m n
  obtain ⟨cn, d, subs, rk, ch⟩ := m
  refine ⟨?_, ?_, ?_, ?_, ?_⟩
  · intro h req
    simp only [Module.config_name] at h
    subst h
    rfl
  · intro h h2
    simp only [Module.config_name] at h
    subst h
    rw [walk_config, walkModule]
    dsimp only
    rw [h2]
    rfl
  · intro v h h2 hv
    simp only [Module.config_name] at h
    subst h
    rw [walk_config, walkModule]
    dsimp only
    rw [h2]
    cases v with
    | null => rfl
    | str s => rfl
    | num i => rfl
    | map mm => exact nomatch hv
  · intro h h2
    simp only [Module.config_name] at h
    subst h
    rw [walk_config, walkModule]
    dsimp only
    rw [h2]
    rfl
  · intro h h2 hsubs
    simp only [Module.config_name] at h
    subst h
    simp only [Module.sub_modules] at hsubs
    subst hsubs
    have hgoal :
        walk_config (fun sc _ _ => (none, sc)) false cfg
          [Module.mk (some n) d [] rk ch] pre =
        ((none : Option Err),
          setKey (setKey cfg n (Val.map [])) n (Val.map [])) := by
      rw [walk_config, walkModule]
      dsimp only
      rw [h2]
      rfl
    rw [hgoal, setKey_setKey, setKey_of_not_has _ h2]

/-- C3 witness: each invariant case at a concrete configuration. -/
theorem walk_config_presence_absence_witness :
    walk_config (fillVisitor []) true [] [mNameless] "" =
      (some (.programmerError "module must provide a config_name"), []) ∧
    walk_config (fillVisitor []) true [] [mRuntime] "" =
      (some (.programmerError "a not present in configuration"), []) ∧
    walk_config (fillVisitor []) true [("a", Val.num 3)] [mRuntime] "" =
      (some (.configurationError "a must be an object configuration"),
       [("a", Val.num 3)]) ∧
    walk_config (fillVisitor []) false [("a", Val.num 3)] [mRuntime] "" =
      (some (.programmerError ("multiple modules providing " ++ ("" ++ "a"))),
       [("a", Val.num 3)]) ∧
    walk_config (fun sc _ _ => (none, sc)) false [("b", Val.num 3)]
        [mRuntime] "" =
      (none, [("b", Val.num 3), ("a", Val.map [])]) :=
  ⟨(walk_config_presence_absence (fillVisitor []) [] [] "" mNameless "a").1
     rfl true,
   (walk_config_presence_absence (fillVisitor []) [] [] "" mRuntime "a").2.1
     rfl rfl,
   (walk_config_presence_absence (fillVisitor []) [("a", Val.num 3)] [] ""
     mRuntime "a").2.2.1 (Val.num 3) rfl rfl rfl,
   (walk_config_presence_absence (fillVisitor []) [("a", Val.num 3)] [] ""
     mRuntime "a").2.2.2.1 rfl rfl,
   (walk_config_presence_absence (fillVisitor []) [("b", Val.num 3)] [] ""
     mRuntime "a").2.2.2.2 rfl rfl rfl⟩

/-- C5: argument beats document beats default (end-to-end scenario), and the
argument filler writes `scoped_config[local_key]` exactly when the external
key is present with a non-null value, overwriting any existing value, and
skips the pair otherwise. -/
theorem argument_over_document_over_default :
    set_default_config [topModule] [("cli_msg", Val.str "override")]
        (some [("top", Val.map [("msg", Val.str "goodbye")])]) true sBefore =
      (none,
       ⟨some (Val.map [("top", Val.map [("msg", Val.str "override")])]),
        some "orig.yaml", none, none⟩,
       [("top", Val.map [("msg", Val.str "override")])]) ∧
    (∀ (args sc : Cfg) (attr cname : String) (v : Val),
      lookupC args attr = some v → v ≠ Val.null →
      applyRuntimeKey args sc (attr, cname) = setKey sc cname v) ∧
    (∀ (args sc : Cfg) (attr cname : String),
      lookupC args attr = none ∨ lookupC args attr = some Val.null →
      applyRuntimeKey args sc (attr, cname) = sc) ∧
    (∀ (sc : Cfg) (k : String) (v : Val),
      lookupC (setKey sc k v) k = some v) := by
  refine ⟨rfl, ?_, ?_, lookupC_setKey_self⟩
  · intro args sc attr cname v h hv
    rw [applyRuntimeKey]
    dsimp only
    rw [h]
    cases v with
    | null => exact absurd rfl hv
    | str s => rfl
    | num i => rfl
    | map mm => rfl
  · intro args sc attr cname h
    rcases h with h | h <;>
      · rw [applyRuntimeKey]
        dsimp only
        rw [h]

/-- C5 witness: the filler cases at concrete dictionaries. -/
theorem argument_over_document_over_default_witness :
    applyRuntimeKey [("k", Val.str "new")] [("x", Val.str "old")] ("k", "x") =
      setKey [("x", Val.str "old")] "x" (Val.str "new") ∧
    applyRuntimeKey [("k", Val.null)] [("x", Val.str "old")] ("k", "x") =
      [("x", Val.str "old")] ∧
    lookupC (setKey [("x", Val.str "old")] "x" (Val.str "new")) "x" =
      some (Val.str "new") :=
  ⟨argument_over_document_over_default.2.1 [("k", Val.str "new")]
     [("x", Val.str "old")] "k" "x" (Val.str "new") rfl (fun h => nomatch h),
   argument_over_document_over_default.2.2.1 [("k", Val.null)]
     [("x", Val.str "old")] "k" "x" (Or.inr rfl),
   argument_over_document_over_default.2.2.2 [("x", Val.str "old")] "x"
     (Val.str "new")⟩

/-- C9: `check_subconfig` never raises for an absent sub-key: it inserts an
empty mapping into the parent via setdefault and runs the sub-object's
`check_config` on it; a present non-Mapping entry raises ProgrammerError
(not ConfigurationError); otherwise `check_config` runs with qualified name
`name + "." + config_name`. -/
theorem check_subconfig_setdefault :
    ∀ (cfg : Cfg) (name subname : String) (sub : Module),
      sub.config_name = some subname →
      ((lookupC cfg subname = none → sub.check_config = none →
         check_subconfig cfg name sub =
           (none, cfg ++ [(subname, Val.map [])])) ∧
       (∀ f e v1, lookupC cfg subname = none → sub.check_config = some f →
         f (Val.map []) (name ++ "." ++ subname) = (e, v1) →
         check_subconfig cfg name sub =
           (e, setKey (cfg ++ [(subname, Val.map [])]) subname v1)) ∧
       (∀ v, lookupC cfg subname = some v → v.isMap = false →
         check_subconfig cfg name sub =
           (some (.programmerError
             ("configuration for " ++ subname ++ " in " ++ name ++
               " must be a mapping")), cfg)) ∧
       (∀ mm f e v1, lookupC cfg subname = some (Val.map mm) →
         sub.check_config = some f →
         f (Val.map mm) (name ++ "." ++ subname) = (e, v1) →
         check_subconfig cfg name sub = (e, setKey cfg subname v1))) := by
  intro cfg name subname sub h
  obtain ⟨cn, d, subs, rk, ch⟩ := sub
  simp only [Module.config_name] at h
  subst h
  refine ⟨?_, ?_, ?_, ?_⟩
  · intro h1 hc
    simp only [Module.check_config] at hc
    subst hc
    rw [check_subconfig]
    dsimp only [Module.config_name, Module.check_config]
    rw [setdefaultC, h1]
    rfl
  · intro f e v1 h1 hc hfe
    simp only [Module.check_config] at hc
    subst hc
    rw [check_subconfig]
    dsimp only [Module.config_name, Module.check_config]
    rw [setdefaultC, h1]
    dsimp only
    rw [hfe]
    rfl
  · intro v h1 hv
    rw [check_subconfig]
    dsimp only [Module.config_name, Module.check_config]
    rw [setdefaultC, h1]
    dsimp only
    rw [hv]
    rfl
  · intro mm f e v1 h1 hc hfe
    simp only [Module.check_config] at hc
    subst hc
    rw [check_subconfig]
    dsimp only [Module.config_name, Module.check_config]
    rw [setdefaultC, h1]
    dsimp only
    rw [hfe]
    rfl

/-- C9 witness: each case at a concrete parent configuration. -/
theorem check_subconfig_setdefault_witness :
    check_subconfig [] "p" mSecond = (none, [("m2", Val.map [])]) ∧
    check_subconfig [] "p" cChild =
      (some (.configurationError "p.c is invalid"),
       setKey [("c", Val.map [])] "c" (Val.map [])) ∧
    check_subconfig [("c", Val.num 3)] "p" cChild =
      (some (.programmerError "configuration for c in p must be a mapping"),
       [("c", Val.num 3)]) ∧
    check_subconfig [("c", Val.map [("z", Val.num 9)])] "p" cChild =
      (some (.configurationError "p.c is invalid"),
       setKey [("c", Val.map [("z", Val.num 9)])] "c"
         (Val.map [("z", Val.num 9)])) :=
  ⟨(check_subconfig_setdefault [] "p" "m2" mSecond rfl).1 rfl rfl,
   (check_subconfig_setdefault [] "p" "c" cChild rfl).2.1 _
     (some (.configurationError "p.c is invalid")) (Val.map []) rfl rfl rfl,
   (check_subconfig_setdefault [("c", Val.num 3)] "p" "c" cChild rfl).2.2.1
     (Val.num 3) rfl rfl,
   (check_subconfig_setdefault [("c", Val.map [("z", Val.num 9)])] "p" "c"
     cChild rfl).2.2.2 [("z", Val.num 9)] _
     (some (.configurationError "p.c is invalid"))
     (Val.map [("z", Val.num 9)]) rfl rfl rfl⟩

/-- C6: the walker runs deterministically in depth-first pre-order: the
instrumented walker computes the same result as `_walk_config`; whenever no
error is raised its visitor-invocation log is exactly the pre-order name
list (declaration order, parent before children, children prefixed by the
parent's qualified name plus a dot); and on the nested fixture the children
end up inside the parent's scoped sub-mapping. -/
theorem walk_config_preorder :
    (∀ (f : Visitor) (req : Bool) (cfg : Cfg) (ms : List Module)
        (pre : String),
        (walkTraceList f req cfg ms pre).1 = walk_config f req cfg ms pre) ∧
    (∀ (f : Visitor) (req : Bool) (cfg : Cfg) (ms : List Module)
        (pre : String),
        (walkTraceList f req cfg ms pre).1.1 = none →
        (walkTraceList f req cfg ms pre).2 = preorderList pre ms) ∧
    (walkTraceList assembleVisitor false [] [nestParent] "").2 =
      ["p", "p.c"] ∧
    (walkTraceList assembleVisitor false [] [nestParent] "").1.2 =
      [("p", Val.map [("k0", Val.num 0), ("c", Val.map [("k", Val.num 1)])])]
    :=
  ⟨walkTraceList_fst, walkTraceList_preorder, rfl, rfl⟩

/-- C6 witness: the no-error hypothesis discharged on the nested fixture. -/
theorem walk_config_preorder_witness :
    (walkTraceList assembleVisitor false [] [nestParent] "").2 =
      preorderList "" [nestParent] :=
  walk_config_preorder.2.1 assembleVisitor false [] [nestParent] "" rfl

/-- C2 counterexample: the code validates only the last module of the list,
not a walker traversal of the whole forest: with a first module whose
checker always raises ConfigurationError and a checkless last module,
`set_default_config` raises nothing and publishes the configuration, while
the walker-based validator the claim describes raises the first module's
error. -/
theorem validateSpec_differs_from_code :
    (set_default_config [mFirstBad, mSecond] [] none true sBefore).1 =
      none ∧
    (validateSpec [mFirstBad, mSecond]
        [("m1", Val.map []), ("m2", Val.map [])]).1 =
      some (.configurationError "m1 invalid") :=
  ⟨rfl, rfl⟩

/-- C2 amended: during validation only the last module's `check_config` is
invoked, with its scoped sub-mapping and its top-level `config_name`; the
error it raises propagates out of `set_default_config` unchanged and the
global state is untouched; a ConfigurationError raised for a nested module
with qualified name `p.c` (through the last module's checker descending via
`check_subconfig`) propagates with that name in its message. -/
theorem set_default_config_validates_last :
    (∀ (ms : List Module) (m : Module) (n : String)
        (f : Val → String → Option Err × Val) (params B : Cfg)
        (fc : Option Cfg) (s : GlobalState) (e : Err) (v v1 : Val),
        m.config_name = some n → m.check_config = some f →
        assembled (ms ++ [m]) params fc = (none, B) →
        lookupC B n = some v → f v n = (some e, v1) →
        (set_default_config (ms ++ [m]) params fc true s).1 = some e ∧
        (set_default_config (ms ++ [m]) params fc true s).2.1 = s) ∧
    ((set_default_config [pParent] [] none true sBefore).1 =
      some (.configurationError "p.c is invalid") ∧
     "p.c is invalid" = "p.c" ++ " is invalid") := by
  refine ⟨?_, rfl, rfl⟩
  intro ms m n f params B fc s e v v1 hn hf ha hv hfe
  have hval : validateLast (ms ++ [m]) B = (some e, setKey B n v1) := by
    rw [validateLast, getLast?_append_singleton]
    dsimp only
    rw [hf]
    dsimp only
    rw [hn]
    dsimp only
    rw [hv]
    dsimp only
    rw [hfe]
  have hcomp : set_default_config (ms ++ [m]) params fc true s =
      (some e, s, setKey B n v1) := by
    rw [set_default_config, ha]
    dsimp only
    rw [isEmpty_append_singleton, hval]
    rfl
  exact ⟨by rw [hcomp], by rw [hcomp]⟩

/-- C2 witness: the amended statement at a singleton module list whose only
module has a failing checker. -/
theorem set_default_config_validates_last_witness :
    (set_default_config [mFirstBad] [] none true sBefore).1 =
      some (.configurationError "m1 invalid") ∧
    (set_default_config [mFirstBad] [] none true sBefore).2.1 = sBefore :=
  set_default_config_validates_last.1 [] mFirstBad "m1"
    (fun v _ => (some (.configurationError "m1 invalid"), v))
    [] [("m1", Val.map [])] none sBefore
    (.configurationError "m1 invalid") (Val.map []) (Val.map [])
    rfl rfl rfl rfl rfl

end Yakonfig
